import Mathlib

/-!
Verification of the voice-activity-gated audio capture engine
(apps/whispering/src-tauri/src/recorder/vad.rs) against its
natural-language specification.

The Rust source is shallowly embedded: the per-chunk audio-callback body
becomes a pure step function on an explicit recorder state, file-system and
hardware outcomes become oracle inputs, Instants become natural-number
millisecond timestamps, and f32 classifier probabilities become rationals
(only their order matters to the control flow).
-/

namespace Vad

/-- Error taxonomy of the recorder, from the VadError enum. -/
inductive VadError where
  | deviceError
  | streamError
  | notInitialized
  | alreadyRunning
  | ioError
  | wavError
deriving Repr, DecidableEq

/-- The queryable recorder state, from struct VadState. -/
structure VadState where
  is_running : Bool
  is_speaking : Bool
  current_file : Option String
deriving Repr, DecidableEq

/-- Events emitted to the frontend: "vad-speech-start" carries no payload,
"vad-speech-detected" carries the file path and the optional file bytes
(struct VadSpeechDetectedEvent). -/
inductive VadEvent where
  | speechStart
  | speechDetected (filePath : String) (fileContents : Option (List Nat))
deriving Repr, DecidableEq

/-- The mutable recording context shared by the audio callback: the
queryable state, the optional open WAV writer (modelled by the list of
samples written so far), and the last-speech Instant in milliseconds. -/
structure RecorderCtx where
  state : VadState
  writer : Option (List ℚ)
  lastSpeechTime : Option ℕ
deriving Repr, DecidableEq

/-- Oracle for the external effects the per-chunk body performs: whether
create_wav_writer succeeds, the timestamp-based path generated for a new
file, and the outcome of fs::read when a recording closes (none models a
read error). -/
structure ChunkEnv where
  createOk : Bool
  newFilePath : String
  readResult : Option (List Nat)
deriving Repr, DecidableEq

/-- The silence timeout in milliseconds:
silence_timeout_ms.unwrap_or(800). -/
def silenceTimeoutOf (silence_timeout_ms : Option ℕ) : ℕ :=
  silence_timeout_ms.getD 800

/-- Speech classification of a chunk: probability > threshold
(strict comparison in the source). -/
def isSpeechOf (threshold probability : ℚ) : Bool :=
  decide (threshold < probability)

/-- should_record: the last-speech time is set and
now.duration_since(last) < silence_timeout. -/
def shouldRecordOf (lastSpeechTime : Option ℕ) (now silenceTimeout : ℕ) : Bool :=
  match lastSpeechTime with
  | some last => decide (now - last < silenceTimeout)
  | none => false

/-- One iteration of the per-chunk loop in the audio callback
(vad.rs lines 205-294): classify, update the last-speech time, compute
should_record, perform the open/close transition, then append the chunk to
the writer when one is open. Returns the new context and the events
emitted. -/
def processChunk (threshold : ℚ) (silenceTimeout : ℕ) (env : ChunkEnv)
    (s : RecorderCtx) (chunk : List ℚ) (probability : ℚ) (now : ℕ) :
    RecorderCtx × List VadEvent :=
  let is_speech := isSpeechOf threshold probability
  let lastTime := if is_speech then some now else s.lastSpeechTime
  let should_record := shouldRecordOf lastTime now silenceTimeout
  let stepped :=
    if should_record && s.writer.isNone then
      if env.createOk then
        ({ state := { s.state with
              is_speaking := true,
              current_file := some env.newFilePath },
           writer := some [],
           lastSpeechTime := lastTime },
         [VadEvent.speechStart])
      else
        ({ s with lastSpeechTime := lastTime }, ([] : List VadEvent))
    else if !should_record && s.writer.isSome then
      ({ state := { s.state with
            is_speaking := false,
            current_file := none },
         writer := none,
         lastSpeechTime := lastTime },
       [VadEvent.speechDetected (s.state.current_file.getD "") env.readResult])
    else
      ({ s with lastSpeechTime := lastTime }, ([] : List VadEvent))
  ({ stepped.1 with writer := stepped.1.writer.map (· ++ chunk) }, stepped.2)

/-- The context installed at session start (vad.rs lines 160-170). -/
def initialCtx : RecorderCtx :=
  { state := { is_running := true, is_speaking := false, current_file := none },
    writer := none,
    lastSpeechTime := none }

/-- The teardown performed by stop_vad_recording on a live session: the
stream is dropped (closing any writer held by the callback closure) and the
state is reset to all-idle (vad.rs lines 327-340). -/
def stopCtx (s : RecorderCtx) : RecorderCtx :=
  { state := { is_running := false, is_speaking := false, current_file := none },
    writer := none,
    lastSpeechTime := s.lastSpeechTime }

/-- Contexts reachable during a session: the initial context, closed under
the per-chunk step and the stop teardown. -/
inductive Reachable : RecorderCtx → Prop where
  | init : Reachable initialCtx
  | step (threshold : ℚ) (silenceTimeout : ℕ) (env : ChunkEnv)
      (s : RecorderCtx) (chunk : List ℚ) (probability : ℚ) (now : ℕ) :
      Reachable s →
      Reachable (processChunk threshold silenceTimeout env s chunk probability now).1
  | teardown (s : RecorderCtx) : Reachable s → Reachable (stopCtx s)

/-- The spec's RecorderState invariant: current_file is set exactly when
is_speaking is true and a writer is open. -/
def StateInv (s : RecorderCtx) : Prop :=
  s.state.current_file.isSome = (s.state.is_speaking && s.writer.isSome)

instance (s : RecorderCtx) : Decidable (StateInv s) := by
  unfold StateInv; infer_instance

end Vad

namespace Vad

/-! ### Frame buffer and chunker (vad.rs lines 188-203) -/

/-- The fixed classifier chunk size: 512 samples. -/
def chunkSize : ℕ := 512

/-- The while-loop draining the buffer: while at least chunkSize samples are
queued, remove exactly chunkSize from the front and emit them as one chunk.
Returns the emitted chunks in order and the remaining queue. -/
def drainChunks (buf : List α) : List (List α) × List α :=
  if h : chunkSize ≤ buf.length then
    let rest := drainChunks (buf.drop chunkSize)
    (buf.take chunkSize :: rest.1, rest.2)
  else
    ([], buf)
termination_by buf.length
decreasing_by
  simp only [List.length_drop]
  have : 0 < chunkSize := by decide
  omega

/-- One audio-callback invocation: append the incoming slice to the queue,
then drain complete chunks. -/
def audioCallback (buf data : List α) : List (List α) × List α :=
  drainChunks (buf ++ data)

/-- A whole sequence of callback invocations, threading the leftover queue:
returns all chunks emitted, in order, and the final leftover queue. -/
def processSlices (buf : List α) : List (List α) → List (List α) × List α
  | [] => ([], buf)
  | d :: ds =>
    let r := audioCallback buf d
    let rest := processSlices r.2 ds
    (r.1 ++ rest.1, rest.2)

end Vad

namespace Vad

/-! ### Device config negotiation (vad.rs lines 101-142) -/

/-- One supported input config range: its minimum and maximum sample rate
(cpal SupportedStreamConfigRange, restricted to what the code reads). -/
structure ConfigRange where
  minRate : ℕ
  maxRate : ℕ
deriving Repr, DecidableEq

/-- A negotiated stream config: channel count and sample rate. -/
structure StreamCfg where
  channels : ℕ
  sampleRate : ℕ
deriving Repr, DecidableEq

/-- The sort key the code assigns to each config range, computed from the
range's minimum sample rate: 16000 first, then 44100 or 48000, then the
rest. -/
def sortKey (c : ConfigRange) : ℕ :=
  if c.minRate = 16000 then 0
  else if c.minRate = 44100 || c.minRate = 48000 then 1
  else 2

/-- Stable insertion by key: the new element goes after every element whose
key is less than or equal to its own, preserving the relative order of
equal keys. -/
def insertByKey (x : ConfigRange) : List ConfigRange → List ConfigRange
  | [] => [x]
  | y :: ys => if sortKey y ≤ sortKey x then y :: insertByKey x ys else x :: y :: ys

/-- The sort performed by supported_configs.sort_by_key: Rust's sort_by_key
is a stable sort, and a stable sort by a total key order is extensionally
unique, so stable insertion sort by the key computes it. -/
def sortConfigs : List ConfigRange → List ConfigRange
  | [] => []
  | x :: xs => insertByKey x (sortConfigs xs)

/-- The rate chosen inside the single selected range: 16000 if the range
contains it, else 48000, else 44100, else the range's maximum rate. -/
def pickRate (c : ConfigRange) : ℕ :=
  if c.minRate ≤ 16000 && 16000 ≤ c.maxRate then 16000
  else if c.minRate ≤ 48000 && 48000 ≤ c.maxRate then 48000
  else if c.minRate ≤ 44100 && 44100 ≤ c.maxRate then 44100
  else c.maxRate

/-- Config negotiation as the code performs it: sort the ranges by sortKey,
take the first, pick the rate within that one range, and force one
channel; fail when the device advertises no config. -/
def negotiateConfig (cs : List ConfigRange) : Option StreamCfg :=
  match (sortConfigs cs).head? with
  | none => none
  | some c => some { channels := 1, sampleRate := pickRate c }

/-- Whether a config range supports a given rate. -/
def supportsRate (c : ConfigRange) (r : ℕ) : Bool :=
  c.minRate ≤ r && r ≤ c.maxRate

/-- The device's maximum supported rate across all its ranges. -/
def deviceMaxRate (cs : List ConfigRange) : ℕ :=
  (cs.map (·.maxRate)).foldr max 0

/-- Config negotiation as the spec's words describe it, for comparison with
negotiateConfig: inspect all supported configurations and pick exactly
16000 if any range supports it, else 48000, else 44100, else the device's
maximum supported rate, forcing mono. -/
def negotiateConfigSpec (cs : List ConfigRange) : Option StreamCfg :=
  if cs.isEmpty then none
  else if cs.any (supportsRate · 16000) then some { channels := 1, sampleRate := 16000 }
  else if cs.any (supportsRate · 48000) then some { channels := 1, sampleRate := 48000 }
  else if cs.any (supportsRate · 44100) then some { channels := 1, sampleRate := 44100 }
  else some { channels := 1, sampleRate := deviceMaxRate cs }

end Vad

namespace Vad

/-! ### Session manager (vad.rs lines 58-96, 305-362) -/

/-- An active session as far as the manager's slot semantics are concerned:
the session's shared recorder state. -/
structure SessionM where
  state : VadState
deriving Repr, DecidableEq

/-- stop_vad_recording on the global session slot: take the session out of
the slot; with a session present, tear it down and succeed, otherwise fail
with notInitialized. Returns the new slot contents and the result. -/
def stopSession (slot : Option SessionM) : Option SessionM × Except VadError Unit :=
  match slot with
  | some _ => (none, Except.ok ())
  | none => (none, Except.error VadError.notInitialized)

/-- start_vad_recording on the slot: when a session is already present,
stop it first (discarding the result), then run setup (device resolution,
config negotiation, stream construction; its outcome is the oracle
argument). On setup success the fresh session is stored; on setup failure
the error is returned and nothing is stored. -/
def startSession (slot : Option SessionM)
    (setup : Except VadError SessionM) : Option SessionM × Except VadError Unit :=
  let slot1 := if slot.isSome then (stopSession slot).1 else slot
  match setup with
  | Except.ok fresh => (some fresh, Except.ok ())
  | Except.error e => (slot1, Except.error e)

/-- get_vad_state: the session's state when one is present, the all-idle
default otherwise; never fails. -/
def queryState (slot : Option SessionM) : VadState :=
  match slot with
  | some s => s.state
  | none => { is_running := false, is_speaking := false, current_file := none }

end Vad

namespace Vad

/-! ### Chunker lemmas -/

/-- The drain loop emits only full chunks, leaves fewer than chunkSize
samples queued, and loses or reorders nothing. -/
theorem drainChunks_spec {α : Type} (buf : List α) :
    (drainChunks buf).1.flatten ++ (drainChunks buf).2 = buf
    ∧ (drainChunks buf).2.length < chunkSize
    ∧ ∀ c ∈ (drainChunks buf).1, c.length = chunkSize := by
  induction buf using drainChunks.induct with
  | case1 buf h ih =>
      rw [drainChunks]
      simp only [dif_pos h, List.flatten_cons, List.append_assoc]
      refine ⟨?_, ih.2.1, ?_⟩
      · rw [ih.1, List.take_append_drop]
      · intro c hc
        rcases List.mem_cons.mp hc with rfl | hc
        · simp only [List.length_take]
          omega
        · exact ih.2.2 c hc
  | case2 buf h =>
      rw [drainChunks]
      simp only [dif_neg h]
      exact ⟨rfl, by omega, by simp⟩

/-- Processing a sequence of slices starting from queue buf concatenates to
buf followed by the slices. -/
theorem processSlices_flatten {α : Type} (ds : List (List α)) (buf : List α) :
    (processSlices buf ds).1.flatten ++ (processSlices buf ds).2 = buf ++ ds.flatten := by
  induction ds generalizing buf with
  | nil => simp [processSlices]
  | cons d ds ih =>
      simp only [processSlices, audioCallback, List.flatten_cons, List.flatten_append,
        List.append_assoc]
      rw [ih, ← List.append_assoc, (drainChunks_spec (buf ++ d)).1, List.append_assoc]

/-- After at least one callback, the leftover queue is shorter than a chunk;
starting from a short queue it stays short. -/
theorem processSlices_rem_lt {α : Type} (ds : List (List α)) (buf : List α)
    (hb : buf.length < chunkSize) :
    (processSlices buf ds).2.length < chunkSize := by
  induction ds generalizing buf with
  | nil => simpa [processSlices] using hb
  | cons d ds ih => exact ih _ (drainChunks_spec (buf ++ d)).2.1

/-- Every chunk emitted across a sequence of callbacks has exactly
chunkSize samples. -/
theorem processSlices_chunk_len {α : Type} (ds : List (List α)) (buf : List α) :
    ∀ c ∈ (processSlices buf ds).1, c.length = chunkSize := by
  induction ds generalizing buf with
  | nil => simp [processSlices]
  | cons d ds ih =>
      intro c hc
      simp only [processSlices, List.mem_append] at hc
      rcases hc with hc | hc
      · exact (drainChunks_spec (buf ++ d)).2.2 c hc
      · exact ih _ c hc

/-- C4: for every sequence of arbitrarily sized input sample slices, the
chunker appends each slice to a queue and emits fixed-size chunks of 512
samples in arrival order, never reordering and never dropping a sample:
the concatenation of the emitted chunks followed by the queued remainder
reproduces the concatenated input exactly, and the remainder is shorter
than 512 samples. -/
theorem chunker_preserves_stream {α : Type} (slices : List (List α)) :
    (processSlices ([] : List α) slices).1.flatten
        ++ (processSlices ([] : List α) slices).2 = slices.flatten
    ∧ (processSlices ([] : List α) slices).2.length < 512
    ∧ ∀ c ∈ (processSlices ([] : List α) slices).1, c.length = 512 := by
  refine ⟨?_, ?_, ?_⟩
  · simpa using processSlices_flatten slices []
  · exact processSlices_rem_lt slices [] (by simp [chunkSize])
  · exact processSlices_chunk_len slices []

end Vad

namespace Vad

/-! ### Sort and negotiation lemmas -/

/-- insertByKey never produces the empty list. -/
theorem insertByKey_ne_nil (x : ConfigRange) (l : List ConfigRange) :
    insertByKey x l ≠ [] := by
  cases l with
  | nil => simp [insertByKey]
  | cons y ys =>
      simp only [insertByKey]
      split <;> simp

/-- The sorted list is empty exactly when the input is. -/
theorem sortConfigs_eq_nil_iff (cs : List ConfigRange) :
    sortConfigs cs = [] ↔ cs = [] := by
  cases cs with
  | nil => simp [sortConfigs]
  | cons c cs => simp [sortConfigs, insertByKey_ne_nil]

/-- Membership in an insertion. -/
theorem mem_insertByKey {z x : ConfigRange} {l : List ConfigRange} :
    z ∈ insertByKey x l ↔ z = x ∨ z ∈ l := by
  induction l with
  | nil => simp [insertByKey]
  | cons y ys ih =>
      simp only [insertByKey]
      split
      · simp only [List.mem_cons, ih]
        try tauto
      · simp only [List.mem_cons]
        try tauto

/-- The head of an insertion into a nonempty list. -/
theorem head_insertByKey (x y : ConfigRange) (ys : List ConfigRange) :
    (insertByKey x (y :: ys)).head? =
      some (if sortKey y ≤ sortKey x then y else x) := by
  simp only [insertByKey]
  split <;> simp

/-- The head of the sorted list is an input range of minimal sort key. -/
theorem sortConfigs_head_min (cs : List ConfigRange) (h : ConfigRange)
    (hh : (sortConfigs cs).head? = some h) :
    h ∈ cs ∧ ∀ c' ∈ cs, sortKey h ≤ sortKey c' := by
  induction cs generalizing h with
  | nil => simp [sortConfigs] at hh
  | cons c cs ih =>
      simp only [sortConfigs] at hh
      rcases hs : sortConfigs cs with _ | ⟨y, ys⟩
      · rw [hs] at hh
        have hnil : cs = [] := (sortConfigs_eq_nil_iff cs).mp hs
        subst hnil
        simp only [insertByKey, List.head?_cons, Option.some.injEq] at hh
        subst hh
        simp
      · rw [hs] at hh
        rw [head_insertByKey] at hh
        have hy := ih y (by rw [hs]; rfl)
        split at hh
        · next hle =>
            rw [Option.some_inj] at hh
            subst hh
            refine ⟨List.mem_cons_of_mem _ hy.1, ?_⟩
            intro c' hc'
            rcases List.mem_cons.mp hc' with rfl | hc'
            · exact hle
            · exact hy.2 c' hc'
        · next hgt =>
            rw [Option.some_inj] at hh
            subst hh
            refine ⟨List.mem_cons_self _ _, ?_⟩
            intro c' hc'
            rcases List.mem_cons.mp hc' with rfl | hc'
            · exact le_refl _
            · exact le_of_lt (lt_of_lt_of_le (lt_of_not_le hgt) (hy.2 c' hc'))

/-- The picked rate is one of the three preferred rates inside the chosen
range, or that range's maximum. -/
theorem pickRate_supports (c : ConfigRange) :
    supportsRate c (pickRate c) = true ∨ pickRate c = c.maxRate := by
  unfold pickRate supportsRate
  split
  · next h => left; simpa using h
  · split
    · next h => left; simpa using h
    · split
      · next h => left; simpa using h
      · right; rfl

/-- C3 (counterexample): on a device advertising the ranges
[44100,44100] and [8000,32000], 16000 Hz is supported (by the second
range) and the spec's selection picks 16000, but the code picks 44100:
negotiation sorts by each range's minimum rate and then inspects only the
first range, so it does not select 16 kHz although the device supports
it. -/
theorem negotiateConfig_cex :
    negotiateConfig [⟨44100, 44100⟩, ⟨8000, 32000⟩]
        = some { channels := 1, sampleRate := 44100 }
    ∧ negotiateConfigSpec [⟨44100, 44100⟩, ⟨8000, 32000⟩]
        = some { channels := 1, sampleRate := 16000 }
    ∧ negotiateConfig [⟨44100, 44100⟩, ⟨8000, 32000⟩]
        ≠ negotiateConfigSpec [⟨44100, 44100⟩, ⟨8000, 32000⟩] := by
  decide

/-- C3 (amended): config negotiation fails exactly when the device
advertises no configuration; otherwise it forces mono and selects the
sample rate from a single configuration range, one of minimal sort key
(minimum rate 16000 first, then 44100 or 48000, then the rest), applying
within that range alone the priority 16000, else 48000, else 44100, else
that range's maximum rate. -/
theorem negotiateConfig_amended (cs : List ConfigRange) :
    (negotiateConfig cs = none ↔ cs = [])
    ∧ ∀ cfg, negotiateConfig cs = some cfg →
        cfg.channels = 1
        ∧ ∃ c ∈ cs, (∀ c' ∈ cs, sortKey c ≤ sortKey c')
            ∧ cfg.sampleRate = pickRate c
            ∧ (supportsRate c cfg.sampleRate = true ∨ cfg.sampleRate = c.maxRate) := by
  constructor
  · rcases hh : (sortConfigs cs).head? with _ | c
    · have h1 : sortConfigs cs = [] := by
        cases hsc : sortConfigs cs with
        | nil => rfl
        | cons a l => rw [hsc] at hh; simp at hh
      have h2 : cs = [] := (sortConfigs_eq_nil_iff cs).mp h1
      simp [negotiateConfig, hh, h2, sortConfigs]
    · simp [negotiateConfig, hh]
      intro hcs
      subst hcs
      simp [sortConfigs] at hh
  · intro cfg hcfg
    rcases hh : (sortConfigs cs).head? with _ | c
    · simp [negotiateConfig, hh] at hcfg
    · simp only [negotiateConfig, hh] at hcfg
      rw [Option.some_inj] at hcfg
      subst hcfg
      obtain ⟨hmem, hmin⟩ := sortConfigs_head_min cs c hh
      exact ⟨rfl, c, hmem, hmin, rfl, pickRate_supports c⟩

end Vad

namespace Vad

/-! ### State machine theorems -/

/-- Preservation of the RecorderState invariant by the per-chunk step. -/
theorem stateInv_processChunk (θ : ℚ) (t : ℕ) (env : ChunkEnv) (s : RecorderCtx)
    (chunk : List ℚ) (p : ℚ) (now : ℕ) (h : StateInv s) :
    StateInv (processChunk θ t env s chunk p now).1 := by
  unfold StateInv at *
  unfold processChunk
  rcases s with ⟨⟨r, sp, cf⟩, w, lt⟩
  rcases env with ⟨co, np, rr⟩
  cases hsr : shouldRecordOf (if isSpeechOf θ p then some now else lt) now t <;>
    cases co <;> rcases w with _ | w <;> simp_all

/-- C6: in every reachable recorder context of a session, current_file is
set if and only if is_speaking is true and a writer is open; the initial
context satisfies this and both the per-chunk step and stop teardown
preserve it. -/
theorem recorder_state_invariant (s : RecorderCtx) (h : Reachable s) : StateInv s := by
  induction h with
  | init => simp [StateInv, initialCtx]
  | step θ t env s chunk p now hs ih => exact stateInv_processChunk θ t env s chunk p now ih
  | teardown s hs ih => simp [StateInv, stopCtx]

/-- Witness for C6 at the initial context. -/
theorem recorder_state_invariant_witness : StateInv initialCtx :=
  recorder_state_invariant initialCtx Reachable.init

/-- C1: should_record holds exactly when the last-speech time is set and
strictly less than the silence timeout has elapsed since it; the timeout
is the configured value, defaulting to 800 ms when omitted; consequently
the per-chunk step closes an open writer only when at least the silence
timeout has elapsed since the last speech-classified chunk. -/
theorem shouldRecord_hysteresis (last : Option ℕ) (now t v : ℕ) :
    (shouldRecordOf last now t = true ↔ ∃ l, last = some l ∧ now - l < t)
    ∧ silenceTimeoutOf none = 800
    ∧ silenceTimeoutOf (some v) = v
    ∧ ∀ (θ p : ℚ) (env : ChunkEnv) (s : RecorderCtx) (chunk : List ℚ) (l : ℕ),
        s.writer.isSome = true →
        (processChunk θ t env s chunk p now).1.writer = none →
        (processChunk θ t env s chunk p now).1.lastSpeechTime = some l →
        t ≤ now - l := by
  refine ⟨?_, rfl, rfl, ?_⟩
  · cases last <;> simp [shouldRecordOf]
  · intro θ p env s chunk l hw hwn hlt
    rcases s with ⟨⟨r, sp, cf⟩, w, lt0⟩
    rcases env with ⟨co, np, rr⟩
    rcases w with _ | w
    · simp at hw
    · unfold processChunk at hwn hlt
      cases hsr : shouldRecordOf (if isSpeechOf θ p then some now else lt0) now t <;>
        simp_all [shouldRecordOf]

/-- Witness for C1: a silent chunk 1000 ms after the last speech closes the
writer, and the elapsed silence is at least the 800 ms timeout. -/
theorem shouldRecord_hysteresis_witness :
    (processChunk 1 800
        { createOk := true, newFilePath := "new.wav", readResult := none }
        { state := { is_running := true, is_speaking := true, current_file := some "rec.wav" },
          writer := some [], lastSpeechTime := some 0 }
        [] 0 1000).1.writer = none
    ∧ (800 : ℕ) ≤ 1000 - 0 := by
  refine ⟨by decide, ?_⟩
  exact (shouldRecord_hysteresis (some 0) 1000 800 5).2.2.2 1 0
    { createOk := true, newFilePath := "new.wav", readResult := none }
    { state := { is_running := true, is_speaking := true, current_file := some "rec.wav" },
      writer := some [], lastSpeechTime := some 0 }
    [] 0 (by decide) (by decide) (by decide)

/-- C10: a chunk is classified as speech exactly when the probability is
strictly greater than the threshold; the last-speech time becomes now on
speech and is otherwise unchanged, so a probability equal to the threshold
counts as silence and leaves the last-speech time unchanged. -/
theorem classification_strict (θ p : ℚ) (t now : ℕ) (env : ChunkEnv)
    (s : RecorderCtx) (chunk : List ℚ) :
    (isSpeechOf θ p = true ↔ θ < p)
    ∧ ((processChunk θ t env s chunk p now).1.lastSpeechTime =
        if θ < p then some now else s.lastSpeechTime)
    ∧ (p = θ → (processChunk θ t env s chunk p now).1.lastSpeechTime = s.lastSpeechTime) := by
  have h2 : (processChunk θ t env s chunk p now).1.lastSpeechTime =
      if θ < p then some now else s.lastSpeechTime := by
    unfold processChunk
    rcases s with ⟨⟨r, sp, cf⟩, w, lt0⟩
    rcases env with ⟨co, np, rr⟩
    cases hsr : shouldRecordOf (if isSpeechOf θ p then some now else lt0) now t <;>
      cases co <;> rcases w with _ | w <;> simp_all [isSpeechOf]
  refine ⟨by simp [isSpeechOf], h2, ?_⟩
  intro hpe
  subst hpe
  rw [h2]
  simp

/-- Witness for C10: probability exactly equal to the threshold leaves the
last-speech time unchanged. -/
theorem classification_strict_witness :
    (processChunk 1 800
        { createOk := true, newFilePath := "new.wav", readResult := none }
        { state := { is_running := true, is_speaking := false, current_file := none },
          writer := none, lastSpeechTime := some 3 }
        [] 1 7).1.lastSpeechTime = some 3 := by
  have h := (classification_strict 1 1 800 7
    { createOk := true, newFilePath := "new.wav", readResult := none }
    { state := { is_running := true, is_speaking := false, current_file := none },
      writer := none, lastSpeechTime := some 3 }
    []).2.2 rfl
  simpa using h

/-- C5: when should_record is false with a writer open and the read back of
the completed file succeeds, the step closes the writer, emits exactly one
speech-detected event carrying the recorded file path and its full
contents, and clears the speaking flag and the current-file field. -/
theorem capture_close_transition (θ p : ℚ) (t now : ℕ) (env : ChunkEnv)
    (s : RecorderCtx) (chunk w : List ℚ) (path : String) (bytes : List Nat)
    (hw : s.writer = some w)
    (hp : s.state.current_file = some path)
    (hr : env.readResult = some bytes)
    (hsr : shouldRecordOf (if isSpeechOf θ p then some now else s.lastSpeechTime) now t
      = false) :
    processChunk θ t env s chunk p now =
      ({ state := { s.state with is_speaking := false, current_file := none },
         writer := none,
         lastSpeechTime := if isSpeechOf θ p then some now else s.lastSpeechTime },
       [VadEvent.speechDetected path (some bytes)]) := by
  rcases s with ⟨⟨r, sp, cf⟩, w0, lt0⟩
  rcases env with ⟨co, np, rr⟩
  unfold processChunk
  simp_all

/-- Witness for C5: a concrete capturing context closed by a silent chunk
emits the artifact event with the file path and its bytes. -/
theorem capture_close_transition_witness :
    processChunk 1 800
        { createOk := true, newFilePath := "new.wav", readResult := some [1, 2, 3] }
        { state := { is_running := true, is_speaking := true, current_file := some "rec.wav" },
          writer := some [], lastSpeechTime := some 0 }
        [] 0 1000 =
      ({ state := { is_running := true, is_speaking := false, current_file := none },
         writer := none, lastSpeechTime := some 0 },
       [VadEvent.speechDetected "rec.wav" (some [1, 2, 3])]) := by
  have h := capture_close_transition 1 0 800 1000
    { createOk := true, newFilePath := "new.wav", readResult := some [1, 2, 3] }
    { state := { is_running := true, is_speaking := true, current_file := some "rec.wav" },
      writer := some [], lastSpeechTime := some 0 }
    [] [] "rec.wav" [1, 2, 3] rfl rfl rfl (by decide)
  simpa using h

/-- C2 (counterexample): a capturing interval whose file read fails at
close still produces a speech-detected notification, carrying the file
path and absent contents, so the expected notification is not
suppressed. -/
theorem read_failure_still_notifies_cex :
    (processChunk 1 800
        { createOk := true, newFilePath := "new.wav", readResult := none }
        { state := { is_running := true, is_speaking := true, current_file := some "rec.wav" },
          writer := some [], lastSpeechTime := some 0 }
        [] 0 1000).2 = [VadEvent.speechDetected "rec.wav" none] := by
  decide

/-- C2 (amended): for every capturing interval, closing emits exactly one
speech-detected notification whatever the outcome of reading the file
back: per-sample write failures are discarded without affecting control
flow, and a failed read only makes the carried contents absent. -/
theorem close_notifies_regardless_of_read (θ p : ℚ) (t now : ℕ) (env : ChunkEnv)
    (s : RecorderCtx) (chunk w : List ℚ)
    (hw : s.writer = some w)
    (hsr : shouldRecordOf (if isSpeechOf θ p then some now else s.lastSpeechTime) now t
      = false) :
    (processChunk θ t env s chunk p now).2 =
      [VadEvent.speechDetected (s.state.current_file.getD "") env.readResult] := by
  rcases s with ⟨⟨r, sp, cf⟩, w0, lt0⟩
  rcases env with ⟨co, np, rr⟩
  unfold processChunk
  simp_all

/-- Witness for the amended C2: a failed read still yields the notification
with absent contents. -/
theorem close_notifies_regardless_of_read_witness :
    (processChunk 1 800
        { createOk := true, newFilePath := "new.wav", readResult := none }
        { state := { is_running := true, is_speaking := true, current_file := some "a.wav" },
          writer := some [], lastSpeechTime := some 100 }
        [] 0 1000).2 = [VadEvent.speechDetected "a.wav" none] := by
  have h := close_notifies_regardless_of_read 1 0 800 1000
    { createOk := true, newFilePath := "new.wav", readResult := none }
    { state := { is_running := true, is_speaking := true, current_file := some "a.wav" },
      writer := some [], lastSpeechTime := some 100 }
    [] [] rfl (by decide)
  simpa using h

/-- C7: when file creation fails during an Idle-to-Capturing transition,
the transition is abandoned: no writer is tracked, is_speaking stays
false, current_file stays unset, and no event is emitted (the step
function returns normally, so nothing propagates out of the callback). -/
theorem create_failure_abandons (θ p : ℚ) (t now : ℕ) (env : ChunkEnv)
    (s : RecorderCtx) (chunk : List ℚ)
    (hw : s.writer = none)
    (hsp : s.state.is_speaking = false)
    (hcf : s.state.current_file = none)
    (hc : env.createOk = false)
    (hsr : shouldRecordOf (if isSpeechOf θ p then some now else s.lastSpeechTime) now t
      = true) :
    (processChunk θ t env s chunk p now).1.writer = none
    ∧ (processChunk θ t env s chunk p now).1.state.is_speaking = false
    ∧ (processChunk θ t env s chunk p now).1.state.current_file = none
    ∧ (processChunk θ t env s chunk p now).2 = [] := by
  rcases s with ⟨⟨r, sp, cf⟩, w0, lt0⟩
  rcases env with ⟨co, np, rr⟩
  unfold processChunk
  simp_all

/-- Witness for C7: a speech chunk arriving in the idle context with file
creation failing leaves everything idle and emits nothing. -/
theorem create_failure_abandons_witness :
    (processChunk 0 800
        { createOk := false, newFilePath := "new.wav", readResult := none }
        initialCtx [] 1 5).1.writer = none
    ∧ (processChunk 0 800
        { createOk := false, newFilePath := "new.wav", readResult := none }
        initialCtx [] 1 5).1.state.is_speaking = false
    ∧ (processChunk 0 800
        { createOk := false, newFilePath := "new.wav", readResult := none }
        initialCtx [] 1 5).1.state.current_file = none
    ∧ (processChunk 0 800
        { createOk := false, newFilePath := "new.wav", readResult := none }
        initialCtx [] 1 5).2 = [] :=
  create_failure_abandons 0 1 800 5
    { createOk := false, newFilePath := "new.wav", readResult := none }
    initialCtx [] rfl rfl rfl rfl (by decide)

end Vad

namespace Vad

/-! ### Session manager theorems -/

/-- C8: starting while a session is active equals stopping it and starting
on the empty slot, for every setup outcome; after a successful start
exactly the fresh session occupies the single slot, so one session and one
stream exist, never two. -/
theorem start_replaces_active_session (s : SessionM)
    (setup : Except VadError SessionM) :
    startSession (some s) setup = startSession (stopSession (some s)).1 setup
    ∧ ∀ fresh, setup = Except.ok fresh →
        (startSession (some s) setup).1 = some fresh := by
  constructor
  · cases setup <;> rfl
  · intro fresh h
    subst h
    rfl

/-- Witness for C8: replacing a concrete active session stores exactly the
fresh one. -/
theorem start_replaces_active_session_witness :
    (startSession
        (some { state := { is_running := true, is_speaking := false, current_file := none } })
        (Except.ok { state := { is_running := false, is_speaking := false, current_file := none } })).1
      = some { state := { is_running := false, is_speaking := false, current_file := none } } :=
  (start_replaces_active_session
    { state := { is_running := true, is_speaking := false, current_file := none } }
    (Except.ok { state := { is_running := false, is_speaking := false, current_file := none } })).2
    _ rfl

/-- C9: stopping with no active session returns the notInitialized error
and leaves the slot without a session. -/
theorem stop_absent_session_errors :
    stopSession (none : Option SessionM)
      = (none, Except.error VadError.notInitialized) := rfl

end Vad

namespace Vad

/-- Witness for the amended C3 at the two-range device of the
counterexample: the negotiated config is mono and its rate comes from a
minimal-key range by the in-range priority. -/
theorem negotiateConfig_amended_witness :
    ({ channels := 1, sampleRate := 44100 } : StreamCfg).channels = 1
    ∧ ∃ c ∈ [ConfigRange.mk 44100 44100, ConfigRange.mk 8000 32000],
        (∀ c' ∈ [ConfigRange.mk 44100 44100, ConfigRange.mk 8000 32000],
          sortKey c ≤ sortKey c')
        ∧ ({ channels := 1, sampleRate := 44100 } : StreamCfg).sampleRate = pickRate c
        ∧ (supportsRate c ({ channels := 1, sampleRate := 44100 } : StreamCfg).sampleRate = true
            ∨ ({ channels := 1, sampleRate := 44100 } : StreamCfg).sampleRate = c.maxRate) :=
  (negotiateConfig_amended [⟨44100, 44100⟩, ⟨8000, 32000⟩]).2
    { channels := 1, sampleRate := 44100 } (by decide)

/-- Witness for C4 at a concrete two-callback slice sequence: the leftover
queue stays shorter than a chunk. -/
theorem chunker_preserves_stream_witness :
    (processSlices ([] : List ℚ) [[1], [2, 3]]).2.length < 512 :=
  (chunker_preserves_stream [[1], [2, 3]]).2.1

end Vad
